import Mathlib

/-!
Shallow embedding of the credential pool gateway of `groq_api_manager.py`
(CosmoQuest).  Wall-clock time is modelled as a natural number; `datetime.now()`
becomes an explicit `now` parameter.  HTTP responses are modelled by the
features the gateway inspects: status code, the shape of the parsed body, the
optional rate-limit reset header (already parsed to a number when present and
parseable, mirroring the `int(...)` call guarded by `try`), and the raw text
used for error messages.
-/

namespace CosmoQuest

/-- The `APIKeyStatus` enum of the source. -/
inductive APIKeyStatus where
  | ACTIVE
  | RATE_LIMITED
  | ERROR
  | EXHAUSTED
  | COOLING_DOWN
deriving DecidableEq

/-- The `APIKeyInfo` dataclass: one credential record. -/
structure APIKeyInfo where
  key : String
  name : String
  status : APIKeyStatus
  last_used : Option Nat := none
  rate_limit_reset : Option Nat := none
  error_count : Nat := 0
  total_requests : Nat := 0
  successful_requests : Nat := 0
  last_error : Option String := none
  cooldown_until : Option Nat := none
deriving DecidableEq

/-- A fresh record as built in `_load_api_keys`. -/
def mkKeyInfo (k n : String) : APIKeyInfo :=
  { key := k, name := n, status := .ACTIVE }

/-- The configuration values read from `API_CONFIG` that the gateway uses. -/
structure Config where
  max_retries : Nat := 3
  base_retry_delay : Nat := 1
  rate_limit_cooldown : Nat := 60
  error_cooldown : Nat := 30
  max_errors_before_cooldown : Nat := 3
  use_quest_based_rotation : Bool := false
deriving DecidableEq

/-- The manager's aggregate `stats` dictionary. -/
structure Stats where
  total_requests : Nat := 0
  successful_requests : Nat := 0
  failed_requests : Nat := 0
  key_switches : Nat := 0
  rate_limit_hits : Nat := 0
deriving DecidableEq

/-- The mutable state of a `GroqAPIManager`: the key list plus statistics. -/
structure ManagerState where
  api_keys : List APIKeyInfo
  stats : Stats := {}
deriving DecidableEq

/-- The fixed, ordered list of environment slots read by `_load_api_keys`. -/
def keyNames : List String :=
  ["GROQ_API_KEY", "GROQ_API_KEY2", "GROQ_API_KEY3", "GROQ_API_KEY4"]

/-- Python truthiness of `os.getenv(name)`: present and non-empty. -/
def envTruthy : Option String → Bool
  | some v => v ≠ ""
  | none => false

/-- One slot of `_load_api_keys`: a present, non-empty value becomes a record. -/
def loadSlot (env : String → Option String) (n : String) : Option APIKeyInfo :=
  match env n with
  | some v => if v ≠ "" then some (mkKeyInfo v n) else none
  | none => none

/-- The `_load_api_keys` constructor: collect the configured slots in order and
fail if none is present (`raise ValueError`). -/
def load_api_keys (env : String → Option String) : Except String (List APIKeyInfo) :=
  let keys := keyNames.filterMap (loadSlot env)
  if keys.isEmpty then
    .error "No Groq API keys found in environment variables"
  else
    .ok keys

/-- Tier-1 eligibility in `_get_next_available_key`: ACTIVE and
`cooldown_until is None or cooldown_until <= now`.  Note the source does not
consult `rate_limit_reset` here. -/
def tier1 (now : Nat) (k : APIKeyInfo) : Bool :=
  k.status == .ACTIVE &&
    match k.cooldown_until with
    | none => true
    | some t => decide (t ≤ now)

/-- Tier-2 eligibility: RATE_LIMITED with a set, expired `rate_limit_reset`. -/
def tier2 (now : Nat) (k : APIKeyInfo) : Bool :=
  k.status == .RATE_LIMITED &&
    match k.rate_limit_reset with
    | none => false
    | some t => decide (t ≤ now)

/-- Tier-3 eligibility: COOLING_DOWN with a set, expired `cooldown_until`. -/
def tier3 (now : Nat) (k : APIKeyInfo) : Bool :=
  k.status == .COOLING_DOWN &&
    match k.cooldown_until with
    | none => false
    | some t => decide (t ≤ now)

/-- Tier-2 recovery mutation: back to ACTIVE, clear the reset timestamp. -/
def recover2 (k : APIKeyInfo) : APIKeyInfo :=
  { k with status := .ACTIVE, rate_limit_reset := none }

/-- Tier-3 recovery mutation: back to ACTIVE, clear cooldown and error count. -/
def recover3 (k : APIKeyInfo) : APIKeyInfo :=
  { k with status := .ACTIVE, cooldown_until := none, error_count := 0 }

/-- First-match search over the key list; the matching record is replaced by
`f` of itself (in-place mutation in the source).  Returns the index, the
updated record and the updated list. -/
def findAndMap (p : APIKeyInfo → Bool) (f : APIKeyInfo → APIKeyInfo) :
    List APIKeyInfo → Option (Nat × APIKeyInfo × List APIKeyInfo)
  | [] => none
  | k :: ks =>
    if p k then
      some (0, f k, f k :: ks)
    else
      match findAndMap p f ks with
      | some (i, k', ks') => some (i + 1, k', k :: ks')
      | none => none

/-- The `_get_next_available_key` selection: three first-match passes in
registration order. -/
def get_next_available_key (now : Nat) (keys : List APIKeyInfo) :
    Option (Nat × APIKeyInfo × List APIKeyInfo) :=
  match findAndMap (tier1 now) id keys with
  | some r => some r
  | none =>
    match findAndMap (tier2 now) recover2 keys with
    | some r => some r
    | none => findAndMap (tier3 now) recover3 keys

/-- Shape of the response body as far as `_handle_api_response` inspects it:
either the `choices[0].message.content` extraction fails (`KeyError` /
`IndexError` / any other exception), or the extracted content fails
`json.loads`, or it parses to a non-mapping value, or it parses to a mapping
(carrying an abstract payload). -/
inductive Body where
  | badStructure
  | malformed
  | nonDict
  | dict (v : Nat)
deriving DecidableEq

/-- The features of an HTTP response the gateway reads. -/
structure HttpResponse where
  status_code : Nat
  body : Body
  reset_header : Option Nat := none
  text : String := ""
deriving DecidableEq

/-- The second component of the pair `_handle_api_response` returns: the
parsed mapping on success, or the rate-limit marker dictionary. -/
inductive CallPayload where
  | parsed (v : Nat)
  | rateLimitInfo (keyName : String)
deriving DecidableEq

/-- Result of one executor call: the `(bool, payload)` pair returned by the
source plus the updated record and statistics. -/
structure ExecResult where
  success : Bool
  payload : Option CallPayload
  key : APIKeyInfo
  stats : Stats
deriving DecidableEq

/-- The `_handle_api_response` classifier, including its per-record and
per-manager side effects. -/
def handle_api_response (cfg : Config) (now : Nat) (resp : HttpResponse)
    (k : APIKeyInfo) (st : Stats) : ExecResult :=
  if resp.status_code == 200 then
    let k := { k with
      successful_requests := k.successful_requests + 1,
      last_used := some now,
      error_count := 0 }
    match resp.body with
    | .dict v => ⟨true, some (.parsed v), k, st⟩
    | .nonDict => ⟨false, none, k, st⟩
    | .malformed => ⟨false, none, { k with error_count := k.error_count + 1 }, st⟩
    | .badStructure => ⟨false, none, { k with error_count := k.error_count + 1 }, st⟩
  else if resp.status_code == 429 then
    let reset :=
      match resp.reset_header with
      | some t => t
      | none => now + cfg.rate_limit_cooldown
    ⟨false, some (.rateLimitInfo k.name),
      { k with status := .RATE_LIMITED, rate_limit_reset := some reset },
      { st with rate_limit_hits := st.rate_limit_hits + 1 }⟩
  else
    let k := { k with
      error_count := k.error_count + 1,
      last_error := some ("HTTP " ++ toString resp.status_code ++ ": " ++ resp.text.take 200) }
    if cfg.max_errors_before_cooldown ≤ k.error_count then
      ⟨false, none,
        { k with status := .COOLING_DOWN, cooldown_until := some (now + cfg.error_cooldown) }, st⟩
    else
      ⟨false, none, k, st⟩

/-- What one outbound call produced: an HTTP response, or a
`requests.exceptions.RequestException` with its message. -/
inductive CallOutcome where
  | http (resp : HttpResponse)
  | netError (msg : String)
deriving DecidableEq

/-- The `_make_request_with_key` executor: bump the attempt counters, then
either classify the response or record the network failure. -/
def make_request_with_key (cfg : Config) (now : Nat) (o : CallOutcome)
    (k : APIKeyInfo) (st : Stats) : ExecResult :=
  let k := { k with total_requests := k.total_requests + 1 }
  let st := { st with total_requests := st.total_requests + 1 }
  match o with
  | .http resp => handle_api_response cfg now resp k st
  | .netError msg =>
    ⟨false, none,
      { k with
        error_count := k.error_count + 1,
        last_error := some ("Request exception: " ++ msg) }, st⟩

/-- The availability check used by `get_status` and `get_key_for_quest`:
ACTIVE with both timestamps absent or expired. -/
def availableCheck (now : Nat) (k : APIKeyInfo) : Bool :=
  k.status == .ACTIVE &&
    (match k.cooldown_until with
     | none => true
     | some t => decide (t ≤ now)) &&
    (match k.rate_limit_reset with
     | none => true
     | some t => decide (t ≤ now))

/-- String value of a status, as `to_dict` serialises the enum. -/
def statusValue : APIKeyStatus → String
  | .ACTIVE => "active"
  | .RATE_LIMITED => "rate_limited"
  | .ERROR => "error"
  | .EXHAUSTED => "exhausted"
  | .COOLING_DOWN => "cooling_down"

/-- One per-key entry of the status snapshot: all fields produced by
`APIKeyInfo.to_dict` (which is `asdict`, so it includes the raw `key`)
plus the two fields `get_status` computes. -/
structure KeyStatusEntry where
  key : String
  name : String
  status : String
  last_used : Option Nat
  rate_limit_reset : Option Nat
  error_count : Nat
  total_requests : Nat
  successful_requests : Nat
  last_error : Option String
  cooldown_until : Option Nat
  success_rate : Rat
  available : Bool
deriving DecidableEq

/-- The per-key dictionary assembled in the `get_status` loop. -/
def keyStatusEntry (now : Nat) (k : APIKeyInfo) : KeyStatusEntry :=
  { key := k.key
    name := k.name
    status := statusValue k.status
    last_used := k.last_used
    rate_limit_reset := k.rate_limit_reset
    error_count := k.error_count
    total_requests := k.total_requests
    successful_requests := k.successful_requests
    last_error := k.last_error
    cooldown_until := k.cooldown_until
    success_rate :=
      if 0 < k.total_requests then
        (k.successful_requests : Rat) / (k.total_requests : Rat)
      else 0
    available := availableCheck now k }

/-- The full `get_status` snapshot. -/
structure StatusSnapshot where
  timestamp : Nat
  stats : Stats
  keys : List KeyStatusEntry
deriving DecidableEq

/-- The `get_status` operation. -/
def get_status (now : Nat) (s : ManagerState) : StatusSnapshot :=
  { timestamp := now
    stats := s.stats
    keys := s.api_keys.map (keyStatusEntry now) }

/-- The per-record mutation of `reset_key_status`. -/
def resetKeyInfo (k : APIKeyInfo) : APIKeyInfo :=
  { k with
    status := .ACTIVE
    error_count := 0
    cooldown_until := none
    rate_limit_reset := none
    last_error := none }

/-- The `reset_key_status` administrative operation: reset the first record
with the given name (returning whether it was found), or every record. -/
def reset_key_status (name : Option String) (keys : List APIKeyInfo) :
    Bool × List APIKeyInfo :=
  match name with
  | some n =>
    match findAndMap (fun k => k.name == n) resetKeyInfo keys with
    | some (_, _, ks) => (true, ks)
    | none => (false, keys)
  | none => (true, keys.map resetKeyInfo)

/-- The sticky index computed by `get_key_for_quest`: `(quest_num - 1) mod
pool size` with Python remainder semantics on a positive modulus
(`Int.emod`). -/
def questIndex (quest_num : Int) (n : Nat) : Nat :=
  ((quest_num - 1).emod (n : Int)).toNat

/-- The `get_key_for_quest` sticky assignment: the record at the sticky index;
if the assigned record is unavailable, fall back to the general selection. -/
def get_key_for_quest (now : Nat) (quest_num : Int) (keys : List APIKeyInfo) :
    Option (Nat × APIKeyInfo × List APIKeyInfo) :=
  if keys.isEmpty then none
  else
    match keys[questIndex quest_num keys.length]? with
    | none => none
    | some k =>
      if availableCheck now k then some (questIndex quest_num keys.length, k, keys)
      else get_next_available_key now keys

/-- Whether an outcome is classified a success by the executor: HTTP success
status and a body parsing to a mapping. -/
def outcomeSucceeds : CallOutcome → Bool
  | .http resp =>
    resp.status_code == 200 &&
      match resp.body with
      | .dict _ => true
      | _ => false
  | .netError _ => false

/-- Whether the executor's payload is the rate-limit marker the retry loop
tests with `result and result.get("rate_limit")`. -/
def isRateLimitPayload : Option CallPayload → Bool
  | some (.rateLimitInfo _) => true
  | _ => false

/-- Result of a full `make_request` run: the returned value (`none` is the
gateway failure), the final state, the clock after all sleeps, the number of
executor calls made, and the total time slept. -/
structure RunResult where
  result : Option CallPayload
  state : ManagerState
  clock : Nat
  calls : Nat
  sleptTotal : Nat
deriving DecidableEq

/-- Bump `stats.failed_requests`, as `make_request` does after the loop. -/
def bumpFailed (s : ManagerState) : ManagerState :=
  { s with stats := { s.stats with failed_requests := s.stats.failed_requests + 1 } }

/-- The retry loop of `make_request`.  `script n` is the outcome of the
`n`-th executor call of this run; `attempt` is the loop counter; sleeping
advances the clock.  `fuel` bounds the recursion (the source loop is not
structurally decreasing because rate-limited iterations do not advance
`attempt`). -/
def make_request_loop (cfg : Config) (script : Nat → CallOutcome)
    (attempt n clock : Nat) (s : ManagerState) : Nat → RunResult
  | 0 => ⟨none, s, clock, n, 0⟩
  | fuel + 1 =>
    if attempt < cfg.max_retries then
      match get_next_available_key clock s.api_keys with
      | none =>
        if attempt < cfg.max_retries - 1 then
          let d := cfg.base_retry_delay * 2 ^ attempt
          let r := make_request_loop cfg script (attempt + 1) n (clock + d) s fuel
          { r with sleptTotal := r.sleptTotal + d }
        else
          ⟨none, bumpFailed s, clock, n, 0⟩
      | some (i, k, keys') =>
        let r := make_request_with_key cfg clock (script n) k s.stats
        let s' : ManagerState := ⟨keys'.set i r.key, r.stats⟩
        if r.success then
          ⟨r.payload,
            { s' with stats :=
              { s'.stats with successful_requests := s'.stats.successful_requests + 1 } },
            clock, n + 1, 0⟩
        else if isRateLimitPayload r.payload then
          make_request_loop cfg script attempt (n + 1) clock
            { s' with stats :=
              { s'.stats with key_switches := s'.stats.key_switches + 1 } } fuel
        else if attempt < cfg.max_retries - 1 then
          let d := cfg.base_retry_delay * 2 ^ attempt
          let r2 := make_request_loop cfg script (attempt + 1) (n + 1) (clock + d) s' fuel
          { r2 with sleptTotal := r2.sleptTotal + d }
        else
          make_request_loop cfg script (attempt + 1) (n + 1) clock s' fuel
    else
      ⟨none, bumpFailed s, clock, n, 0⟩

/-- The public `make_request` operation: the optional sticky attempt (when
quest-based rotation is enabled and a truthy quest number is given) followed
by the retry loop. -/
def make_request (cfg : Config) (script : Nat → CallOutcome)
    (quest_num : Option Int) (clock : Nat) (s : ManagerState) (fuel : Nat) :
    RunResult :=
  match quest_num with
  | some q =>
    if cfg.use_quest_based_rotation && (q != 0) then
      match get_key_for_quest clock q s.api_keys with
      | none => make_request_loop cfg script 0 0 clock s fuel
      | some (i, k, keys') =>
        let r := make_request_with_key cfg clock (script 0) k s.stats
        let s' : ManagerState := ⟨keys'.set i r.key, r.stats⟩
        if r.success then
          ⟨r.payload,
            { s' with stats :=
              { s'.stats with successful_requests := s'.stats.successful_requests + 1 } },
            clock, 1, 0⟩
        else
          make_request_loop cfg script 0 1 clock s' fuel
    else
      make_request_loop cfg script 0 0 clock s fuel
  | none => make_request_loop cfg script 0 0 clock s fuel

/-- One state transition of the key store: a selection-plus-executor attempt
(through either the general selection or the sticky assignment), or an
administrative reset.  These are the only operations of the module that
mutate records. -/
inductive Step : List APIKeyInfo → List APIKeyInfo → Prop where
  | attempt (cfg : Config) (now : Nat) (o : CallOutcome) (st : Stats)
      (keys : List APIKeyInfo) (i : Nat) (k : APIKeyInfo) (keys' : List APIKeyInfo) :
      get_next_available_key now keys = some (i, k, keys') →
      Step keys (keys'.set i (make_request_with_key cfg now o k st).key)
  | questAttempt (cfg : Config) (now : Nat) (q : Int) (o : CallOutcome) (st : Stats)
      (keys : List APIKeyInfo) (i : Nat) (k : APIKeyInfo) (keys' : List APIKeyInfo) :
      get_key_for_quest now q keys = some (i, k, keys') →
      Step keys (keys'.set i (make_request_with_key cfg now o k st).key)
  | reset (name : Option String) (keys : List APIKeyInfo) :
      Step keys (reset_key_status name keys).2

/-- The key stores reachable from construction by the module's operations. -/
inductive Reachable : List APIKeyInfo → Prop where
  | init (env : String → Option String) (keys : List APIKeyInfo) :
      load_api_keys env = .ok keys → Reachable keys
  | step (s s' : List APIKeyInfo) : Reachable s → Step s s' → Reachable s'

/-- The per-record invariant maintained by every reachable state. -/
def KeyInv (k : APIKeyInfo) : Prop :=
  (k.status = .ACTIVE → k.rate_limit_reset = none ∧ k.cooldown_until = none) ∧
  (k.status = .RATE_LIMITED → k.cooldown_until = none) ∧
  (k.status = .COOLING_DOWN → k.rate_limit_reset = none) ∧
  k.successful_requests ≤ k.total_requests ∧
  (k.status = .ACTIVE ∨ k.status = .RATE_LIMITED ∨ k.status = .COOLING_DOWN)

theorem findAndMap_some (p : APIKeyInfo → Bool) (f : APIKeyInfo → APIKeyInfo) :
    ∀ (l : List APIKeyInfo) (i : Nat) (k : APIKeyInfo) (l' : List APIKeyInfo),
      findAndMap p f l = some (i, k, l') →
      ∃ h : i < l.length,
        p (l.get ⟨i, h⟩) = true ∧ k = f (l.get ⟨i, h⟩) ∧ l' = l.set i k ∧
        ∀ j (hj : j < l.length), j < i → p (l.get ⟨j, hj⟩) = false := by
  intro l
  induction l with
  | nil => intro i k l' h; simp [findAndMap] at h
  | cons a as ih =>
    intro i k l' h
    by_cases hp : p a
    · simp [findAndMap, hp] at h
      obtain ⟨hi, hk, hl'⟩ := h
      subst hi
      refine ⟨Nat.succ_pos _, ?_, ?_, ?_, ?_⟩
      · simpa using hp
      · simpa using hk.symm
      · simp [← hl', ← hk]
      · intro j hj hji; omega
    · simp [findAndMap, hp] at h
      cases hrec : findAndMap p f as with
      | none => rw [hrec] at h; simp at h
      | some r =>
        obtain ⟨i0, k0, l0⟩ := r
        rw [hrec] at h
        simp at h
        obtain ⟨hi, hk, hl'⟩ := h
        obtain ⟨h0, hp0, hk0, hl0, hmin⟩ := ih i0 k0 l0 hrec
        subst hi hk hl'
        refine ⟨Nat.succ_lt_succ h0, ?_, ?_, ?_, ?_⟩
        · simpa using hp0
        · simpa using hk0
        · simp [List.set, hl0]
        · intro j hj hji
          cases j with
          | zero => simpa using hp
          | succ j0 =>
            have hj0 : j0 < as.length := Nat.lt_of_succ_lt_succ hj
            have := hmin j0 hj0 (Nat.lt_of_succ_lt_succ hji)
            simpa using this

theorem findAndMap_none (p : APIKeyInfo → Bool) (f : APIKeyInfo → APIKeyInfo) :
    ∀ (l : List APIKeyInfo), findAndMap p f l = none → ∀ k ∈ l, p k = false := by
  intro l
  induction l with
  | nil => intro _ k hk; simp at hk
  | cons a as ih =>
    intro h k hk
    by_cases hp : p a
    · simp [findAndMap, hp] at h
    · simp [findAndMap, hp] at h
      cases hrec : findAndMap p f as with
      | none =>
        rcases List.mem_cons.mp hk with hka | hkas
        · subst hka; simpa using hp
        · exact ih hrec k hkas
      | some r => rw [hrec] at h; simp at h

theorem get_next_available_key_cases (now : Nat) (keys : List APIKeyInfo)
    (i : Nat) (k : APIKeyInfo) (keys' : List APIKeyInfo)
    (h : get_next_available_key now keys = some (i, k, keys')) :
    ∃ hi : i < keys.length, keys' = keys.set i k ∧
      ((tier1 now (keys.get ⟨i, hi⟩) = true ∧ k = keys.get ⟨i, hi⟩ ∧
          ∀ j (hj : j < keys.length), j < i → tier1 now (keys.get ⟨j, hj⟩) = false) ∨
       ((∀ x ∈ keys, tier1 now x = false) ∧
          tier2 now (keys.get ⟨i, hi⟩) = true ∧ k = recover2 (keys.get ⟨i, hi⟩) ∧
          ∀ j (hj : j < keys.length), j < i → tier2 now (keys.get ⟨j, hj⟩) = false) ∨
       ((∀ x ∈ keys, tier1 now x = false) ∧ (∀ x ∈ keys, tier2 now x = false) ∧
          tier3 now (keys.get ⟨i, hi⟩) = true ∧ k = recover3 (keys.get ⟨i, hi⟩) ∧
          ∀ j (hj : j < keys.length), j < i → tier3 now (keys.get ⟨j, hj⟩) = false)) := by
  unfold get_next_available_key at h
  cases h1 : findAndMap (tier1 now) id keys with
  | some r =>
    obtain ⟨i1, k1, l1⟩ := r
    rw [h1] at h
    simp at h
    obtain ⟨hi, hk, hl⟩ := h
    subst hi hk hl
    obtain ⟨hlt, hp, hk, hset, hmin⟩ := findAndMap_some _ _ keys _ _ _ h1
    exact ⟨hlt, hset, Or.inl ⟨hp, hk, hmin⟩⟩
  | none =>
    rw [h1] at h
    have ht1 : ∀ x ∈ keys, tier1 now x = false := findAndMap_none _ _ keys h1
    cases h2 : findAndMap (tier2 now) recover2 keys with
    | some r =>
      obtain ⟨i2, k2, l2⟩ := r
      rw [h2] at h
      simp at h
      obtain ⟨hi, hk, hl⟩ := h
      subst hi hk hl
      obtain ⟨hlt, hp, hk, hset, hmin⟩ := findAndMap_some _ _ keys _ _ _ h2
      exact ⟨hlt, hset, Or.inr (Or.inl ⟨ht1, hp, hk, hmin⟩)⟩
    | none =>
      rw [h2] at h
      have ht2 : ∀ x ∈ keys, tier2 now x = false := findAndMap_none _ _ keys h2
      obtain ⟨hlt, hp, hk, hset, hmin⟩ := findAndMap_some _ _ keys _ _ _ h
      exact ⟨hlt, hset, Or.inr (Or.inr ⟨ht1, ht2, hp, hk, hmin⟩)⟩

theorem get_next_available_key_none (now : Nat) (keys : List APIKeyInfo)
    (h : get_next_available_key now keys = none) :
    ∀ k ∈ keys, tier1 now k = false ∧ tier2 now k = false ∧ tier3 now k = false := by
  unfold get_next_available_key at h
  cases h1 : findAndMap (tier1 now) id keys with
  | some r => rw [h1] at h; simp at h
  | none =>
    rw [h1] at h
    cases h2 : findAndMap (tier2 now) recover2 keys with
    | some r => rw [h2] at h; simp at h
    | none =>
      rw [h2] at h
      intro k hk
      exact ⟨findAndMap_none _ _ keys h1 k hk, findAndMap_none _ _ keys h2 k hk,
        findAndMap_none _ _ keys h k hk⟩

theorem load_api_keys_ok (env : String → Option String) (keys : List APIKeyInfo)
    (h : load_api_keys env = .ok keys) :
    keys = keyNames.filterMap (loadSlot env) := by
  by_cases he : (keyNames.filterMap (loadSlot env)).isEmpty
  · simp [load_api_keys, he] at h
  · simp [load_api_keys, he] at h
    exact h.symm

theorem load_api_keys_mem (env : String → Option String) (keys : List APIKeyInfo)
    (h : load_api_keys env = .ok keys) :
    ∀ k ∈ keys, ∃ v n, k = mkKeyInfo v n := by
  intro k hk
  rw [load_api_keys_ok env keys h] at hk
  obtain ⟨n, _, hslot⟩ := List.mem_filterMap.mp hk
  unfold loadSlot at hslot
  split at hslot
  · rename_i v hv
    split at hslot
    · refine ⟨v, n, ?_⟩
      cases hslot
      rfl
    · exact absurd hslot (by simp)
  · exact absurd hslot (by simp)

theorem KeyInv_mkKeyInfo (v n : String) : KeyInv (mkKeyInfo v n) := by
  refine ⟨?_, ?_, ?_, ?_, ?_⟩ <;> simp [mkKeyInfo, KeyInv]

/-- A record that is ACTIVE with no pending timestamps and consistent
counters satisfies the invariant. -/
theorem KeyInv_of_fresh (k : APIKeyInfo) (hA : k.status = .ACTIVE)
    (hR : k.rate_limit_reset = none) (hC : k.cooldown_until = none)
    (hs : k.successful_requests ≤ k.total_requests) : KeyInv k := by
  refine ⟨fun _ => ⟨hR, hC⟩, fun hc => ?_, fun hc => ?_, hs, Or.inl hA⟩
  · rw [hA] at hc; cases hc
  · rw [hA] at hc; cases hc

theorem tier1_status {now : Nat} {k : APIKeyInfo} (h : tier1 now k = true) :
    k.status = .ACTIVE := by
  have h' := (Bool.and_eq_true _ _).mp h
  exact beq_iff_eq.mp h'.1

theorem tier2_status {now : Nat} {k : APIKeyInfo} (h : tier2 now k = true) :
    k.status = .RATE_LIMITED := by
  have h' := (Bool.and_eq_true _ _).mp h
  exact beq_iff_eq.mp h'.1

theorem tier3_status {now : Nat} {k : APIKeyInfo} (h : tier3 now k = true) :
    k.status = .COOLING_DOWN := by
  have h' := (Bool.and_eq_true _ _).mp h
  exact beq_iff_eq.mp h'.1

theorem availableCheck_status {now : Nat} {k : APIKeyInfo}
    (h : availableCheck now k = true) : k.status = .ACTIVE := by
  have h' := (Bool.and_eq_true _ _).mp h
  have h'' := (Bool.and_eq_true _ _).mp h'.1
  exact beq_iff_eq.mp h''.1

/-- Under the store invariant, any record handed out by `_get_next_available_key`
is ACTIVE with no pending timestamps and consistent counters, and the updated
store is the original with that record written back at its index. -/
theorem selected_key_prop (now : Nat) (keys : List APIKeyInfo)
    (i : Nat) (k : APIKeyInfo) (keys' : List APIKeyInfo)
    (hinv : ∀ x ∈ keys, KeyInv x)
    (h : get_next_available_key now keys = some (i, k, keys')) :
    k.status = .ACTIVE ∧ k.rate_limit_reset = none ∧ k.cooldown_until = none ∧
    k.successful_requests ≤ k.total_requests ∧ keys' = keys.set i k := by
  obtain ⟨hi, hset, hcase⟩ := get_next_available_key_cases now keys i k keys' h
  have hmem : keys.get ⟨i, hi⟩ ∈ keys := List.get_mem keys i hi
  have hx := hinv _ hmem
  rcases hcase with ⟨hp, hk, _⟩ | ⟨_, hp, hk, _⟩ | ⟨_, _, hp, hk, _⟩
  · have hst : k.status = .ACTIVE := by rw [hk]; exact tier1_status hp
    subst hk
    exact ⟨hst, (hx.1 hst).1, (hx.1 hst).2, hx.2.2.2.1, hset⟩
  · have hst := tier2_status hp
    subst hk
    refine ⟨rfl, rfl, ?_, ?_, hset⟩
    · simpa [recover2] using hx.2.1 hst
    · simpa [recover2] using hx.2.2.2.1
  · have hst := tier3_status hp
    subst hk
    refine ⟨rfl, ?_, rfl, ?_, hset⟩
    · simpa [recover3] using hx.2.2.1 hst
    · simpa [recover3] using hx.2.2.2.1

/-- A sticky selection is either the assigned available record (store
unchanged) or a general selection. -/
theorem get_key_for_quest_cases (now : Nat) (q : Int) (keys : List APIKeyInfo)
    (i : Nat) (k : APIKeyInfo) (keys' : List APIKeyInfo)
    (h : get_key_for_quest now q keys = some (i, k, keys')) :
    (∃ hi : i < keys.length, k = keys.get ⟨i, hi⟩ ∧ keys' = keys ∧
      availableCheck now k = true) ∨
    get_next_available_key now keys = some (i, k, keys') := by
  unfold get_key_for_quest at h
  split at h
  · exact absurd h (by simp)
  · split at h
    · exact absurd h (by simp)
    · rename_i k0 hk0
      split at h
      · left
        rename_i hav
        obtain ⟨hidx, hk, hl⟩ := by simpa using h
        subst hk hl hidx
        obtain ⟨hi, hget⟩ := List.getElem?_eq_some.mp hk0
        refine ⟨hi, ?_, rfl, hav⟩
        rw [List.get_eq_getElem]
        exact hget.symm
      · right; exact h

/-- The sticky record handed out by `get_key_for_quest` under the store
invariant: ACTIVE, no pending timestamps, consistent counters, and the
returned store differs from the original at most at the written-back index. -/
theorem quest_key_prop (now : Nat) (q : Int) (keys : List APIKeyInfo)
    (i : Nat) (k : APIKeyInfo) (keys' : List APIKeyInfo)
    (hinv : ∀ x ∈ keys, KeyInv x)
    (h : get_key_for_quest now q keys = some (i, k, keys')) :
    k.status = .ACTIVE ∧ k.rate_limit_reset = none ∧ k.cooldown_until = none ∧
    k.successful_requests ≤ k.total_requests ∧ (keys' = keys ∨ keys' = keys.set i k) := by
  rcases get_key_for_quest_cases now q keys i k keys' h with ⟨hi, hget, hl, hav⟩ | hsel
  · have hst := availableCheck_status hav
    have hmem : k ∈ keys := by rw [hget]; exact List.get_mem keys i hi
    have hx := hinv k hmem
    exact ⟨hst, (hx.1 hst).1, (hx.1 hst).2, hx.2.2.2.1, Or.inl hl⟩
  · obtain ⟨h1, h2, h3, h4, h5⟩ := selected_key_prop now keys i k keys' hinv hsel
    exact ⟨h1, h2, h3, h4, Or.inr h5⟩

/-- The executor's update of an ACTIVE record with no pending timestamps
satisfies the record invariant again, whatever the outcome. -/
theorem exec_preserves_inv (cfg : Config) (now : Nat) (o : CallOutcome)
    (k : APIKeyInfo) (st : Stats)
    (hA : k.status = .ACTIVE) (hR : k.rate_limit_reset = none)
    (hC : k.cooldown_until = none) (hs : k.successful_requests ≤ k.total_requests) :
    KeyInv (make_request_with_key cfg now o k st).key := by
  cases o with
  | netError msg =>
    refine ⟨?_, ?_, ?_, ?_, ?_⟩ <;>
      simp [make_request_with_key, KeyInv, hA, hR, hC] <;> omega
  | http resp =>
    simp only [make_request_with_key]
    by_cases h200 : resp.status_code == 200
    · cases hb : resp.body <;>
        refine ⟨?_, ?_, ?_, ?_, ?_⟩ <;>
        simp [handle_api_response, h200, hb, hA, hR, hC] <;> omega
    · by_cases h429 : resp.status_code == 429
      · refine ⟨?_, ?_, ?_, ?_, ?_⟩ <;>
          simp [handle_api_response, h200, h429, hA, hR, hC] <;> omega
      · by_cases hth : cfg.max_errors_before_cooldown ≤ k.error_count + 1
        · refine ⟨?_, ?_, ?_, ?_, ?_⟩ <;>
            simp [handle_api_response, h200, h429, hth, hA, hR, hC] <;> omega
        · refine ⟨?_, ?_, ?_, ?_, ?_⟩ <;>
            simp [handle_api_response, h200, h429, hth, hA, hR, hC] <;> omega

theorem resetKeyInfo_inv (k : APIKeyInfo)
    (hs : k.successful_requests ≤ k.total_requests) : KeyInv (resetKeyInfo k) := by
  refine ⟨?_, ?_, ?_, ?_, ?_⟩ <;> simp [resetKeyInfo, KeyInv, hs]

/-- The store invariant is preserved by every operation step. -/
theorem step_preserves_inv (s s' : List APIKeyInfo) (hstep : Step s s')
    (hinv : ∀ x ∈ s, KeyInv x) : ∀ x ∈ s', KeyInv x := by
  cases hstep with
  | attempt cfg now o st keys i k keys' hsel =>
    intro x hx
    obtain ⟨h1, h2, h3, h4, h5⟩ := selected_key_prop now s i k keys' hinv hsel
    rcases List.mem_or_eq_of_mem_set hx with hx' | rfl
    · subst h5
      rcases List.mem_or_eq_of_mem_set hx' with hx'' | rfl
      · exact hinv x hx''
      · exact KeyInv_of_fresh _ h1 h2 h3 h4
    · exact exec_preserves_inv cfg now o k st h1 h2 h3 h4
  | questAttempt cfg now q o st keys i k keys' hsel =>
    intro x hx
    obtain ⟨h1, h2, h3, h4, h5⟩ := quest_key_prop now q s i k keys' hinv hsel
    have hkinv : KeyInv k := KeyInv_of_fresh _ h1 h2 h3 h4
    rcases List.mem_or_eq_of_mem_set hx with hx' | rfl
    · rcases h5 with rfl | rfl
      · exact hinv x hx'
      · rcases List.mem_or_eq_of_mem_set hx' with hx'' | rfl
        · exact hinv x hx''
        · exact hkinv
    · exact exec_preserves_inv cfg now o k st h1 h2 h3 h4
  | reset name keys =>
    intro x hx
    cases name with
    | none =>
      simp only [reset_key_status] at hx
      obtain ⟨y, hy, rfl⟩ := List.mem_map.mp hx
      exact resetKeyInfo_inv y (hinv y hy).2.2.2.1
    | some n =>
      simp only [reset_key_status] at hx
      cases hf : findAndMap (fun k => k.name == n) resetKeyInfo s with
      | none => rw [hf] at hx; exact hinv x hx
      | some r =>
        obtain ⟨i0, k0, l0⟩ := r
        rw [hf] at hx
        obtain ⟨hi, hp, hk, hl, _⟩ := findAndMap_some _ _ s i0 k0 l0 hf
        subst hl
        rcases List.mem_or_eq_of_mem_set hx with hx' | rfl
        · exact hinv x hx'
        · subst hk
          exact resetKeyInfo_inv _ (hinv _ (List.get_mem s i0 hi)).2.2.2.1

/-- Every reachable key store satisfies the record invariant. -/
theorem reachable_inv (keys : List APIKeyInfo) (h : Reachable keys) :
    ∀ k ∈ keys, KeyInv k := by
  induction h with
  | init env keys0 hload =>
    intro k hk
    obtain ⟨v, n, rfl⟩ := load_api_keys_mem env keys0 hload k hk
    exact KeyInv_mkKeyInfo v n
  | step s s' _ hstep ih => exact step_preserves_inv s s' hstep ih

/-- The executor increments `total_requests` by exactly one and never
decreases `successful_requests`. -/
theorem exec_counters (cfg : Config) (now : Nat) (o : CallOutcome)
    (k : APIKeyInfo) (st : Stats) :
    k.total_requests ≤ (make_request_with_key cfg now o k st).key.total_requests ∧
    k.successful_requests ≤ (make_request_with_key cfg now o k st).key.successful_requests := by
  cases o with
  | netError msg => constructor <;> simp [make_request_with_key]
  | http resp =>
    by_cases h200 : resp.status_code == 200
    · cases hb : resp.body <;> constructor <;>
        simp [make_request_with_key, handle_api_response, h200, hb] <;> omega
    · by_cases h429 : resp.status_code == 429
      · constructor <;>
          simp [make_request_with_key, handle_api_response, h200, h429]
      · by_cases hth : cfg.max_errors_before_cooldown ≤ k.error_count + 1
        · constructor <;>
            simp [make_request_with_key, handle_api_response, h200, h429, hth]
        · constructor <;>
            simp [make_request_with_key, handle_api_response, h200, h429, hth]

/-- The executor classifies an outcome as a success exactly when the HTTP
status is 200 and the body parses to a mapping. -/
theorem exec_success_iff (cfg : Config) (now : Nat) (o : CallOutcome)
    (k : APIKeyInfo) (st : Stats) :
    (make_request_with_key cfg now o k st).success = outcomeSucceeds o := by
  cases o with
  | netError msg => simp [make_request_with_key, outcomeSucceeds]
  | http resp =>
    by_cases h200 : resp.status_code == 200
    · cases hb : resp.body <;>
        simp [make_request_with_key, handle_api_response, outcomeSucceeds, h200, hb]
    · by_cases h429 : resp.status_code == 429
      · simp [make_request_with_key, handle_api_response, outcomeSucceeds, h200, h429]
      · by_cases hth : cfg.max_errors_before_cooldown ≤ k.error_count + 1
        · simp [make_request_with_key, handle_api_response, outcomeSucceeds, h200, h429, hth]
        · simp [make_request_with_key, handle_api_response, outcomeSucceeds, h200, h429, hth]

/-- A record handed out by selection carries the counters of the record at
its index (the recovery mutations do not touch counters). -/
theorem selected_counters (now : Nat) (keys : List APIKeyInfo)
    (i : Nat) (k : APIKeyInfo) (keys' : List APIKeyInfo)
    (h : get_next_available_key now keys = some (i, k, keys')) :
    ∃ hi : i < keys.length, keys' = keys.set i k ∧
      k.total_requests = (keys.get ⟨i, hi⟩).total_requests ∧
      k.successful_requests = (keys.get ⟨i, hi⟩).successful_requests := by
  obtain ⟨hi, hset, hcase⟩ := get_next_available_key_cases now keys i k keys' h
  rcases hcase with ⟨_, hk, _⟩ | ⟨_, _, hk, _⟩ | ⟨_, _, _, hk, _⟩
  · exact ⟨hi, hset, by rw [hk], by rw [hk]⟩
  · exact ⟨hi, hset, by rw [hk]; rfl, by rw [hk]; rfl⟩
  · exact ⟨hi, hset, by rw [hk]; rfl, by rw [hk]; rfl⟩

/-- Per-record counters are monotone along every operation step, and steps
preserve the length of the store. -/
theorem step_counters (s s' : List APIKeyInfo) (h : Step s s') :
    s'.length = s.length ∧
    ∀ i (hi : i < s.length) (hi' : i < s'.length),
      (s.get ⟨i, hi⟩).total_requests ≤ (s'.get ⟨i, hi'⟩).total_requests ∧
      (s.get ⟨i, hi⟩).successful_requests ≤ (s'.get ⟨i, hi'⟩).successful_requests := by
  cases h with
  | attempt cfg now o st keys i k keys' hsel =>
    obtain ⟨hi, hset, htot, hsucc⟩ := selected_counters now s i k keys' hsel
    subst hset
    rw [List.set_set]
    constructor
    · simp
    · intro j hj hj'
      by_cases hij : j = i
      · subst hij
        rw [List.get_eq_getElem, List.get_eq_getElem, List.getElem_set_self]
        have hc := exec_counters cfg now o k st
        constructor
        · calc (s[j]).total_requests = k.total_requests := by
                rw [htot, List.get_eq_getElem]
             _ ≤ _ := hc.1
        · calc (s[j]).successful_requests = k.successful_requests := by
                rw [hsucc, List.get_eq_getElem]
             _ ≤ _ := hc.2
      · rw [List.get_eq_getElem, List.get_eq_getElem,
          List.getElem_set_ne (fun he => hij he.symm)]
        exact ⟨Nat.le_refl _, Nat.le_refl _⟩
  | questAttempt cfg now q o st keys i k keys' hsel =>
    rcases get_key_for_quest_cases now q s i k keys' hsel with ⟨hi, hget, hl, _⟩ | hsel'
    · subst hl
      constructor
      · simp
      · intro j hj hj'
        by_cases hij : j = i
        · subst hij
          rw [List.get_eq_getElem, List.get_eq_getElem, List.getElem_set_self]
          have hc := exec_counters cfg now o k st
          subst hget
          rw [List.get_eq_getElem] at hc
          exact ⟨hc.1, hc.2⟩
        · rw [List.get_eq_getElem, List.get_eq_getElem,
            List.getElem_set_ne (fun he => hij he.symm)]
          exact ⟨Nat.le_refl _, Nat.le_refl _⟩
    · obtain ⟨hi, hset, htot, hsucc⟩ := selected_counters now s i k keys' hsel'
      subst hset
      rw [List.set_set]
      constructor
      · simp
      · intro j hj hj'
        by_cases hij : j = i
        · subst hij
          rw [List.get_eq_getElem, List.get_eq_getElem, List.getElem_set_self]
          have hc := exec_counters cfg now o k st
          constructor
          · calc (s[j]).total_requests = k.total_requests := by
                  rw [htot, List.get_eq_getElem]
               _ ≤ _ := hc.1
          · calc (s[j]).successful_requests = k.successful_requests := by
                  rw [hsucc, List.get_eq_getElem]
               _ ≤ _ := hc.2
        · rw [List.get_eq_getElem, List.get_eq_getElem,
            List.getElem_set_ne (fun he => hij he.symm)]
          exact ⟨Nat.le_refl _, Nat.le_refl _⟩
  | reset name keys =>
    cases name with
    | none =>
      constructor
      · simp [reset_key_status]
      · intro j hj hj'
        simp only [reset_key_status] at hj' ⊢
        rw [List.get_eq_getElem, List.get_eq_getElem]
        rw [List.getElem_map]
        exact ⟨Nat.le_refl _, Nat.le_refl _⟩
    | some n =>
      simp only [reset_key_status]
      cases hf : findAndMap (fun k => k.name == n) resetKeyInfo s with
      | none =>
        constructor
        · rfl
        · intro j hj hj'
          exact ⟨Nat.le_refl _, Nat.le_refl _⟩
      | some r =>
        obtain ⟨i0, k0, l0⟩ := r
        obtain ⟨hi0, _, hk0, hl0, _⟩ := findAndMap_some _ _ s i0 k0 l0 hf
        subst hl0
        constructor
        · simp
        · intro j hj hj'
          by_cases hij : j = i0
          · subst hij
            rw [List.get_eq_getElem, List.get_eq_getElem, List.getElem_set_self]
            subst hk0
            rw [List.get_eq_getElem]
            exact ⟨Nat.le_refl _, Nat.le_refl _⟩
          · rw [List.get_eq_getElem, List.get_eq_getElem,
              List.getElem_set_ne (fun he => hij he.symm)]
            exact ⟨Nat.le_refl _, Nat.le_refl _⟩

/-- A one-slot environment used by concrete witnesses. -/
def env1 : String → Option String := fun n =>
  if n = "GROQ_API_KEY" then some "sk-alpha" else none

/-- An environment with no configured credentials. -/
def envEmpty : String → Option String := fun _ => none

/-- The store produced by `env1`. -/
def keys1 : List APIKeyInfo := [mkKeyInfo "sk-alpha" "GROQ_API_KEY"]

/-- A two-slot environment. -/
def env2 : String → Option String := fun n =>
  if n = "GROQ_API_KEY" then some "sk-a"
  else if n = "GROQ_API_KEY2" then some "sk-b"
  else none

/-- The store produced by `env2`. -/
def keys2 : List APIKeyInfo :=
  [mkKeyInfo "sk-a" "GROQ_API_KEY", mkKeyInfo "sk-b" "GROQ_API_KEY2"]

/-- A rate-limit response with no reset header. -/
def resp429 : HttpResponse := { status_code := 429, body := .malformed }

/-- A successful response whose body parses to a mapping. -/
def respOK : HttpResponse := { status_code := 200, body := .dict 7 }

/-- A script on which every call is rate-limited. -/
def script429 : Nat → CallOutcome := fun _ => .http resp429

/-- A script on which every call succeeds. -/
def scriptOK : Nat → CallOutcome := fun _ => .http respOK

/-- The default configuration of `config.py`. -/
def cfg0 : Config := {}

/-- The default configuration with a retry ceiling of one. -/
def cfgR1 : Config := { max_retries := 1 }

/-- The default configuration with quest-based rotation enabled. -/
def cfgQuest : Config := { use_quest_based_rotation := true }

/-- C1: the claim states that `get_status` never exposes the raw secret and
that two stores differing only in their secret values yield identical
snapshots.  The code violates this: `to_dict` is `asdict`, which copies the
raw `key` field into every per-key entry of the snapshot, so the two
snapshots below differ and each contains its raw secret.  The two stores
differ only in the secret value (third conjunct). -/
theorem c1_secret_exposed_in_status :
    get_status 0 ⟨[mkKeyInfo "sk-alpha" "GROQ_API_KEY"], {}⟩ ≠
      get_status 0 ⟨[mkKeyInfo "sk-beta" "GROQ_API_KEY"], {}⟩ ∧
    (get_status 0 ⟨[mkKeyInfo "sk-alpha" "GROQ_API_KEY"], {}⟩).keys.map
      KeyStatusEntry.key = ["sk-alpha"] ∧
    { mkKeyInfo "sk-alpha" "GROQ_API_KEY" with key := "sk-beta" } =
      mkKeyInfo "sk-beta" "GROQ_API_KEY" := by
  refine ⟨fun h => ?_, rfl, rfl⟩
  have h' := congrArg (fun s => s.keys.map KeyStatusEntry.key) h
  simp [get_status, keyStatusEntry, mkKeyInfo] at h'

/-- The number of configured (present, non-empty) credential slots. -/
def configuredCount (env : String → Option String) : Nat :=
  (keyNames.filter (fun n => envTruthy (env n))).length

theorem filterMap_loadSlot_length (env : String → Option String) :
    ∀ l : List String,
      (l.filterMap (loadSlot env)).length = (l.filter (fun n => envTruthy (env n))).length := by
  intro l
  induction l with
  | nil => rfl
  | cons a as ih =>
    cases ha : env a with
    | none => simp [List.filterMap_cons, List.filter_cons, loadSlot, envTruthy, ha, ih]
    | some v =>
      by_cases hv : v = ""
      · simp [List.filterMap_cons, List.filter_cons, loadSlot, envTruthy, ha, hv, ih]
      · simp [List.filterMap_cons, List.filter_cons, loadSlot, envTruthy, ha, hv, ih]

/-- C8: construction with zero configured credential values fails with the
no-credentials error, and construction with `N ≥ 1` configured values yields
a store of exactly `N` records, all ACTIVE. -/
theorem c8_construction (env : String → Option String) :
    (configuredCount env = 0 →
      load_api_keys env = .error "No Groq API keys found in environment variables") ∧
    (0 < configuredCount env →
      ∃ keys, load_api_keys env = .ok keys ∧ keys.length = configuredCount env ∧
        ∀ k ∈ keys, k.status = .ACTIVE) := by
  have hlen : (keyNames.filterMap (loadSlot env)).length = configuredCount env :=
    filterMap_loadSlot_length env keyNames
  constructor
  · intro h0
    have he : (keyNames.filterMap (loadSlot env)).isEmpty = true := by
      rw [List.isEmpty_iff_length_eq_zero, hlen]
      exact h0
    simp [load_api_keys, he]
  · intro hpos
    have he : (keyNames.filterMap (loadSlot env)).isEmpty = false := by
      rw [List.isEmpty_eq_false_iff_exists_mem]
      have : 0 < (keyNames.filterMap (loadSlot env)).length := by rw [hlen]; exact hpos
      exact List.exists_mem_of_length_pos this
    refine ⟨keyNames.filterMap (loadSlot env), by simp [load_api_keys, he], hlen, ?_⟩
    intro k hk
    obtain ⟨n, _, hslot⟩ := List.mem_filterMap.mp hk
    unfold loadSlot at hslot
    split at hslot
    · split at hslot
      · cases hslot
        rfl
      · exact absurd hslot (by simp)
    · exact absurd hslot (by simp)

/-- C8 witness: the two halves of `c8_construction` applied to concrete
environments. -/
theorem c8_witness :
    (configuredCount envEmpty = 0 ∧
      load_api_keys envEmpty = .error "No Groq API keys found in environment variables") ∧
    (0 < configuredCount env2 ∧
      ∃ keys, load_api_keys env2 = .ok keys ∧ keys.length = configuredCount env2 ∧
        ∀ k ∈ keys, k.status = .ACTIVE) :=
  ⟨⟨by decide, (c8_construction envEmpty).1 (by decide)⟩,
   ⟨by decide, (c8_construction env2).2 (by decide)⟩⟩

/-- C10: every record returned by the selection operation (either the general
three-tier selection or the sticky assignment) is ACTIVE at that moment, and
every record of every reachable store is ACTIVE, RATE_LIMITED or
COOLING_DOWN — the ERROR and EXHAUSTED states are never assigned. -/
theorem c10_reachable_statuses :
    (∀ now keys i k keys', get_next_available_key now keys = some (i, k, keys') →
      k.status = .ACTIVE) ∧
    (∀ now q keys i k keys', get_key_for_quest now q keys = some (i, k, keys') →
      k.status = .ACTIVE) ∧
    (∀ keys, Reachable keys → ∀ k ∈ keys,
      k.status = .ACTIVE ∨ k.status = .RATE_LIMITED ∨ k.status = .COOLING_DOWN) := by
  have hsel : ∀ now keys i k keys',
      get_next_available_key now keys = some (i, k, keys') → k.status = .ACTIVE := by
    intro now keys i k keys' h
    obtain ⟨hi, _, hcase⟩ := get_next_available_key_cases now keys i k keys' h
    rcases hcase with ⟨hp, hk, _⟩ | ⟨_, _, hk, _⟩ | ⟨_, _, _, hk, _⟩
    · rw [hk]; exact tier1_status hp
    · rw [hk]; rfl
    · rw [hk]; rfl
  refine ⟨hsel, ?_, ?_⟩
  · intro now q keys i k keys' h
    rcases get_key_for_quest_cases now q keys i k keys' h with ⟨_, _, _, hav⟩ | hsel' 
    · exact availableCheck_status hav
    · exact hsel now keys i k keys' hsel'
  · intro keys hreach k hk
    exact (reachable_inv keys hreach k hk).2.2.2.2

/-- C10 witness: the parts of `c10_reachable_statuses` applied at concrete
selections and a concrete reachable store. -/
theorem c10_witness :
    (mkKeyInfo "sk-a" "GROQ_API_KEY").status = .ACTIVE ∧
    (mkKeyInfo "sk-alpha" "GROQ_API_KEY").status = .ACTIVE ∧
    ((mkKeyInfo "sk-alpha" "GROQ_API_KEY").status = .ACTIVE ∨
      (mkKeyInfo "sk-alpha" "GROQ_API_KEY").status = .RATE_LIMITED ∨
      (mkKeyInfo "sk-alpha" "GROQ_API_KEY").status = .COOLING_DOWN) :=
  ⟨c10_reachable_statuses.1 0 keys2 0 _ keys2 (by decide),
   c10_reachable_statuses.2.1 0 1 keys1 0 _ keys1 (by decide),
   c10_reachable_statuses.2.2 keys1 (.init env1 keys1 rfl) _ (by decide)⟩

/-- The property stated by claim C2: exactly one of the two timestamps is
non-null. -/
def exactlyOneTimestamp (k : APIKeyInfo) : Prop :=
  k.rate_limit_reset.isSome ≠ k.cooldown_until.isSome

/-- C2 counterexample: a freshly constructed store is reachable and its
record has both timestamps null, so "exactly one of the two is non-null"
fails (zero of them are). -/
theorem c2_counterexample :
    Reachable keys1 ∧ mkKeyInfo "sk-alpha" "GROQ_API_KEY" ∈ keys1 ∧
    ¬ exactlyOneTimestamp (mkKeyInfo "sk-alpha" "GROQ_API_KEY") :=
  ⟨.init env1 keys1 rfl, by decide, by simp [exactlyOneTimestamp, mkKeyInfo]⟩

/-- C2 (amended): in every reachable state, at most one of
`rate_limit_reset` and `cooldown_until` is non-null per record (both are null
for ACTIVE records; a RATE_LIMITED record carries only `rate_limit_reset`, a
COOLING_DOWN record only `cooldown_until`).  The 429 transition does not
explicitly clear `cooldown_until`, but every record that reaches it already
has `cooldown_until = none`. -/
theorem c2_at_most_one_timestamp (keys : List APIKeyInfo) (h : Reachable keys) :
    ∀ k ∈ keys, ¬(k.rate_limit_reset.isSome = true ∧ k.cooldown_until.isSome = true) := by
  intro k hk hcontra
  have hx := reachable_inv keys h k hk
  rcases hx.2.2.2.2 with hA | hR | hC
  · rw [(hx.1 hA).1] at hcontra
    simp at hcontra
  · rw [hx.2.1 hR] at hcontra
    simp at hcontra
  · rw [hx.2.2.1 hC] at hcontra
    simp at hcontra

/-- C2 witness: the amended theorem applied at a concrete reachable store. -/
theorem c2_witness :
    ¬((mkKeyInfo "sk-alpha" "GROQ_API_KEY").rate_limit_reset.isSome = true ∧
      (mkKeyInfo "sk-alpha" "GROQ_API_KEY").cooldown_until.isSome = true) :=
  c2_at_most_one_timestamp keys1 (.init env1 keys1 rfl) _ (by decide)

/-- C9: in every reachable state each record has
`successful_requests ≤ total_requests`, and both counters are monotonically
non-decreasing per record under every operation step — including reset, which
clears state, error count, timestamps and last error but not the counters. -/
theorem c9_counter_monotonicity :
    (∀ keys, Reachable keys → ∀ k ∈ keys, k.successful_requests ≤ k.total_requests) ∧
    (∀ s s', Step s s' → s'.length = s.length ∧
      ∀ i (hi : i < s.length) (hi' : i < s'.length),
        (s.get ⟨i, hi⟩).total_requests ≤ (s'.get ⟨i, hi'⟩).total_requests ∧
        (s.get ⟨i, hi⟩).successful_requests ≤ (s'.get ⟨i, hi'⟩).successful_requests) :=
  ⟨fun keys h k hk => (reachable_inv keys h k hk).2.2.2.1,
   fun s s' h => step_counters s s' h⟩

/-- C9 witness: both halves of `c9_counter_monotonicity` applied at a
concrete reachable store and a concrete reset step. -/
theorem c9_witness :
    (mkKeyInfo "sk-alpha" "GROQ_API_KEY").successful_requests ≤
      (mkKeyInfo "sk-alpha" "GROQ_API_KEY").total_requests ∧
    ((keys1.get ⟨0, by decide⟩).total_requests ≤
      ((reset_key_status none keys1).2.get ⟨0, by decide⟩).total_requests ∧
     (keys1.get ⟨0, by decide⟩).successful_requests ≤
      ((reset_key_status none keys1).2.get ⟨0, by decide⟩).successful_requests) :=
  ⟨c9_counter_monotonicity.1 keys1 (.init env1 keys1 rfl) _ (by decide),
   (c9_counter_monotonicity.2 keys1 (reset_key_status none keys1).2
      (Step.reset none keys1)).2 0 (by decide) (by decide)⟩

/-- An ACTIVE record carrying an unexpired rate-limit-reset timestamp.  Such
a state never arises in normal operation, but claim C5 is a statement about
the selection function on arbitrary stores and this input decides it. -/
def c5Key : APIKeyInfo :=
  { mkKeyInfo "sk-alpha" "GROQ_API_KEY" with rate_limit_reset := some 100 }

/-- Tier-1 eligibility as claim C5 words it (spec side): ACTIVE with no
unexpired cooldown or rate-limit-reset timestamp.  The source's tier 1 does
not consult `rate_limit_reset`. -/
def tier1Claim (now : Nat) (k : APIKeyInfo) : Bool :=
  k.status == .ACTIVE &&
    (match k.cooldown_until with
     | none => true
     | some t => decide (t ≤ now)) &&
    (match k.rate_limit_reset with
     | none => true
     | some t => decide (t ≤ now))

/-- C5 counterexample: at time 0 an ACTIVE record with
`rate_limit_reset = some 100` qualifies for no tier of the claim's policy
(its tier 1 requires the rate-limit-reset timestamp to be absent or expired),
so the claim's selection reports no credential; the code's tier 1, which
checks only the cooldown timestamp, selects it. -/
theorem c5_counterexample :
    get_next_available_key 0 [c5Key] = some (0, c5Key, [c5Key]) ∧
    tier1Claim 0 c5Key = false ∧ tier2 0 c5Key = false ∧ tier3 0 c5Key = false := by
  refine ⟨by decide, by decide, by decide, by decide⟩

/-- C5 (amended): selection is the deterministic three-tier first-match
policy over registration order in which tier 1 requires ACTIVE with an
absent-or-expired cooldown timestamp only (the rate-limit-reset timestamp is
not consulted in tier 1); tier 2 returns the first RATE_LIMITED record with
an expired reset, transitioned to ACTIVE with the reset cleared; tier 3
returns the first COOLING_DOWN record with an expired cooldown, transitioned
to ACTIVE with cooldown and error count cleared; otherwise no record of the
store qualifies for any tier and no credential is reported. -/
theorem c5_selection_policy :
    (∀ now keys i k keys', get_next_available_key now keys = some (i, k, keys') →
      ∃ hi : i < keys.length, keys' = keys.set i k ∧
        ((tier1 now (keys.get ⟨i, hi⟩) = true ∧ k = keys.get ⟨i, hi⟩ ∧
            ∀ j (hj : j < keys.length), j < i → tier1 now (keys.get ⟨j, hj⟩) = false) ∨
         ((∀ x ∈ keys, tier1 now x = false) ∧
            tier2 now (keys.get ⟨i, hi⟩) = true ∧ k = recover2 (keys.get ⟨i, hi⟩) ∧
            ∀ j (hj : j < keys.length), j < i → tier2 now (keys.get ⟨j, hj⟩) = false) ∨
         ((∀ x ∈ keys, tier1 now x = false) ∧ (∀ x ∈ keys, tier2 now x = false) ∧
            tier3 now (keys.get ⟨i, hi⟩) = true ∧ k = recover3 (keys.get ⟨i, hi⟩) ∧
            ∀ j (hj : j < keys.length), j < i → tier3 now (keys.get ⟨j, hj⟩) = false))) ∧
    (∀ now keys, get_next_available_key now keys = none →
      ∀ k ∈ keys, tier1 now k = false ∧ tier2 now k = false ∧ tier3 now k = false) :=
  ⟨get_next_available_key_cases, get_next_available_key_none⟩

/-- C5 witness: the characterisation applied at a concrete selection. -/
theorem c5_witness : keys1 = keys1.set 0 (mkKeyInfo "sk-alpha" "GROQ_API_KEY") := by
  obtain ⟨hi, hset, _⟩ := c5_selection_policy.1 0 keys1 0 (mkKeyInfo "sk-alpha" "GROQ_API_KEY") keys1 (by decide)
  exact hset

/-- A record with two accumulated consecutive errors and some history. -/
def c3Key : APIKeyInfo :=
  { mkKeyInfo "sk-alpha" "GROQ_API_KEY" with
    error_count := 2, total_requests := 5, successful_requests := 1 }

/-- A successful HTTP status whose content is syntactically valid but parses
to a bare list, i.e. not a mapping. -/
def c3Resp : HttpResponse := { status_code := 200, body := .nonDict }

/-- C3: the claim says `totalSuccesses` is incremented and
`consecutiveErrorCount` reset exactly on Success outcomes, and that a 200
with a non-mapping body is a TransientError that leaves them alone.  The code
violates this: it increments `successful_requests` and zeroes `error_count`
on any 200 before parsing, so the non-mapping case below returns the failure
outcome (`success = false`) yet has its success counter incremented and its
error count reset from 2 to 0. -/
theorem c3_success_counters_move_on_nondict :
    (make_request_with_key cfg0 10 (.http c3Resp) c3Key {}).success = false ∧
    (make_request_with_key cfg0 10 (.http c3Resp) c3Key {}).key.successful_requests =
      c3Key.successful_requests + 1 ∧
    (make_request_with_key cfg0 10 (.http c3Resp) c3Key {}).key.error_count = 0 ∧
    c3Key.error_count = 2 := by
  refine ⟨by decide, by decide, by decide, by decide⟩

/-- A record one error short of the default cooldown threshold. -/
def c4Key : APIKeyInfo := { mkKeyInfo "sk-alpha" "GROQ_API_KEY" with error_count := 2 }

/-- A server-error response. -/
def resp500 : HttpResponse := { status_code := 500, body := .malformed, text := "oops" }

/-- C4 counterexample: a network failure is a TransientError per the claim,
and it raises `error_count` to the threshold (3), yet the record is not
transitioned to COOLING_DOWN and no `cooldown_until` is scheduled — the
threshold check exists only in the non-success non-429 HTTP branch. -/
theorem c4_counterexample :
    cfg0.max_errors_before_cooldown = 3 ∧
    (make_request_with_key cfg0 10 (.netError "connection reset") c4Key {}).key.error_count = 3 ∧
    (make_request_with_key cfg0 10 (.netError "connection reset") c4Key {}).key.status =
      .ACTIVE ∧
    (make_request_with_key cfg0 10 (.netError "connection reset") c4Key {}).key.cooldown_until =
      none := by
  refine ⟨by decide, by decide, by decide, by decide⟩

/-- C4 (amended): only a TransientError arising from a non-success,
non-rate-limit HTTP status performs the full accounting the claim describes —
increment `error_count` and `total_requests`, record a truncated `lastError`,
and transition to COOLING_DOWN with `cooldown_until = now + error_cooldown`
exactly when the incremented count reaches the threshold.  A network failure
increments the count and attempt counter and records an untruncated
`lastError` but never transitions the record; a 200 whose content fails to
parse leaves the count at 1 (it was zeroed first), records no `lastError`,
and never transitions the record. -/
theorem c4_transient_error_accounting :
    (∀ cfg now resp k st, resp.status_code ≠ 200 → resp.status_code ≠ 429 →
      ((make_request_with_key cfg now (.http resp) k st).key.error_count =
          k.error_count + 1 ∧
       (make_request_with_key cfg now (.http resp) k st).key.total_requests =
          k.total_requests + 1 ∧
       (make_request_with_key cfg now (.http resp) k st).key.last_error =
          some ("HTTP " ++ toString resp.status_code ++ ": " ++ resp.text.take 200) ∧
       (cfg.max_errors_before_cooldown ≤ k.error_count + 1 →
         (make_request_with_key cfg now (.http resp) k st).key.status = .COOLING_DOWN ∧
         (make_request_with_key cfg now (.http resp) k st).key.cooldown_until =
           some (now + cfg.error_cooldown)) ∧
       (k.error_count + 1 < cfg.max_errors_before_cooldown →
         (make_request_with_key cfg now (.http resp) k st).key.status = k.status ∧
         (make_request_with_key cfg now (.http resp) k st).key.cooldown_until =
           k.cooldown_until))) ∧
    (∀ cfg now msg k st,
      (make_request_with_key cfg now (.netError msg) k st).key.error_count =
        k.error_count + 1 ∧
      (make_request_with_key cfg now (.netError msg) k st).key.total_requests =
        k.total_requests + 1 ∧
      (make_request_with_key cfg now (.netError msg) k st).key.last_error =
        some ("Request exception: " ++ msg) ∧
      (make_request_with_key cfg now (.netError msg) k st).key.status = k.status ∧
      (make_request_with_key cfg now (.netError msg) k st).key.cooldown_until =
        k.cooldown_until) ∧
    (∀ cfg now hdr txt k st,
      (make_request_with_key cfg now (.http ⟨200, .malformed, hdr, txt⟩) k st).key.error_count =
        1 ∧
      (make_request_with_key cfg now (.http ⟨200, .malformed, hdr, txt⟩) k st).key.status =
        k.status ∧
      (make_request_with_key cfg now (.http ⟨200, .malformed, hdr, txt⟩) k st).key.cooldown_until =
        k.cooldown_until ∧
      (make_request_with_key cfg now (.http ⟨200, .malformed, hdr, txt⟩) k st).key.last_error =
        k.last_error) := by
  refine ⟨?_, ?_, ?_⟩
  · intro cfg now resp k st h200 h429
    have h200' : (resp.status_code == 200) = false := by simp [h200]
    have h429' : (resp.status_code == 429) = false := by simp [h429]
    by_cases hth : cfg.max_errors_before_cooldown ≤ k.error_count + 1
    · refine ⟨?_, ?_, ?_, fun _ => ⟨?_, ?_⟩, fun hlt => absurd hth (by omega)⟩ <;>
        simp [make_request_with_key, handle_api_response, h200', h429', hth]
    · refine ⟨?_, ?_, ?_, fun hge => absurd hge hth, fun _ => ⟨?_, ?_⟩⟩ <;>
        simp [make_request_with_key, handle_api_response, h200', h429', hth]
  · intro cfg now msg k st
    refine ⟨?_, ?_, ?_, ?_, ?_⟩ <;> simp [make_request_with_key]
  · intro cfg now hdr txt k st
    refine ⟨?_, ?_, ?_, ?_⟩ <;> simp [make_request_with_key, handle_api_response]

/-- C4 witness: the three branches of `c4_transient_error_accounting` applied
at concrete inputs. -/
theorem c4_witness :
    (make_request_with_key cfg0 5 (.http resp500) c4Key {}).key.error_count =
      c4Key.error_count + 1 ∧
    (make_request_with_key cfg0 5 (.netError "boom") c4Key {}).key.error_count =
      c4Key.error_count + 1 ∧
    (make_request_with_key cfg0 5 (.http ⟨200, .malformed, none, ""⟩) c4Key {}).key.error_count =
      1 :=
  ⟨(c4_transient_error_accounting.1 cfg0 5 resp500 c4Key {} (by decide) (by decide)).1,
   (c4_transient_error_accounting.2.1 cfg0 5 "boom" c4Key {}).1,
   (c4_transient_error_accounting.2.2 cfg0 5 none "" c4Key {}).1⟩

/-- C6 counterexample: with a retry ceiling of 1 and two fresh keys that
both answer 429, the loop makes two executor calls — more than the ceiling —
because a rate-limited outcome re-enters the loop without incrementing the
attempt counter.  The run still ends in the gateway failure (`none`). -/
theorem c6_counterexample :
    cfgR1.max_retries = 1 ∧
    (make_request_loop cfgR1 script429 0 0 0 ⟨keys2, {}⟩ 10).calls = 2 ∧
    (make_request_loop cfgR1 script429 0 0 0 ⟨keys2, {}⟩ 10).result = none := by
  refine ⟨by decide, by decide, by decide⟩

/-- C6 (amended): the retry loop performs at most `max_retries`
attempt-consuming iterations — once the attempt counter reaches the ceiling
the loop stops with the gateway failure and no further calls; a rate-limited
outcome re-enters the loop immediately, with the same attempt counter and the
same clock (no sleep), so rate-limited calls are not counted against the
ceiling and the total number of executor calls can exceed it; and a run whose
outcomes never succeed returns the gateway failure (`none`). -/
theorem c6_retry_loop_behaviour :
    (∀ cfg script attempt n clock s fuel, cfg.max_retries ≤ attempt →
      make_request_loop cfg script attempt n clock s (fuel + 1) =
        ⟨none, bumpFailed s, clock, n, 0⟩) ∧
    (∀ cfg script attempt n clock s fuel i k keys' resp,
      attempt < cfg.max_retries →
      get_next_available_key clock s.api_keys = some (i, k, keys') →
      script n = .http resp → resp.status_code = 429 →
      make_request_loop cfg script attempt n clock s (fuel + 1) =
        make_request_loop cfg script attempt (n + 1) clock
          ⟨keys'.set i (make_request_with_key cfg clock (.http resp) k s.stats).key,
            { (make_request_with_key cfg clock (.http resp) k s.stats).stats with
              key_switches :=
                (make_request_with_key cfg clock (.http resp) k s.stats).stats.key_switches + 1 }⟩
          fuel) ∧
    (∀ cfg script attempt n clock s fuel,
      (∀ m, outcomeSucceeds (script m) = false) →
      (make_request_loop cfg script attempt n clock s fuel).result = none) := by
  refine ⟨?_, ?_, ?_⟩
  · intro cfg script attempt n clock s fuel h
    simp [make_request_loop, Nat.not_lt.mpr h]
  · intro cfg script attempt n clock s fuel i k keys' resp hlt hsel hsc h429
    have hr : make_request_with_key cfg clock (script n) k s.stats =
        make_request_with_key cfg clock (.http resp) k s.stats := by rw [hsc]
    have hsucc : (make_request_with_key cfg clock (.http resp) k s.stats).success = false := by
      rw [exec_success_iff]
      simp [outcomeSucceeds, h429]
    have hpay : (make_request_with_key cfg clock (.http resp) k s.stats).payload =
        some (.rateLimitInfo k.name) := by
      have h200' : (resp.status_code == 200) = false := by simp [h429]
      have h429' : (resp.status_code == 429) = true := by simp [h429]
      simp [make_request_with_key, handle_api_response, h200', h429']
    simp only [make_request_loop, if_pos hlt, hsel, hr, hsucc, hpay,
      isRateLimitPayload, Bool.false_eq_true, if_false, if_true]
  · intro cfg script attempt n clock s fuel hfail
    induction fuel generalizing attempt n clock s with
    | zero => rfl
    | succ fuel ih =>
      by_cases hlt : attempt < cfg.max_retries
      · simp only [make_request_loop, if_pos hlt]
        cases hsel : get_next_available_key clock s.api_keys with
        | none =>
          by_cases hlast : attempt < cfg.max_retries - 1
          · simp only [if_pos hlast]
            exact ih _ _ _ _
          · simp only [if_neg hlast]
        | some t =>
          obtain ⟨i, k, keys'⟩ := t
          have hsucc : (make_request_with_key cfg clock (script n) k s.stats).success = false := by
            rw [exec_success_iff]
            exact hfail n
          simp only [hsucc, Bool.false_eq_true, if_false]
          by_cases hrl :
              isRateLimitPayload (make_request_with_key cfg clock (script n) k s.stats).payload
          · simp only [hrl, if_true]
            exact ih _ _ _ _
          · simp only [hrl, Bool.false_eq_true, if_false]
            by_cases hlast : attempt < cfg.max_retries - 1
            · simp only [if_pos hlast]
              exact ih _ _ _ _
            · simp only [if_neg hlast]
              exact ih _ _ _ _
      · simp [make_request_loop, hlt]

/-- C6 witness: the three parts of `c6_retry_loop_behaviour` applied at
concrete runs. -/
theorem c6_witness :
    make_request_loop cfgR1 script429 1 0 0 ⟨keys2, {}⟩ 3 =
      ⟨none, bumpFailed ⟨keys2, {}⟩, 0, 0, 0⟩ ∧
    make_request_loop cfgR1 script429 0 0 0 ⟨keys2, {}⟩ 4 =
      make_request_loop cfgR1 script429 0 1 0
        ⟨keys2.set 0
            (make_request_with_key cfgR1 0 (.http resp429)
              (mkKeyInfo "sk-a" "GROQ_API_KEY") ({} : Stats)).key,
          { (make_request_with_key cfgR1 0 (.http resp429)
              (mkKeyInfo "sk-a" "GROQ_API_KEY") ({} : Stats)).stats with
            key_switches :=
              (make_request_with_key cfgR1 0 (.http resp429)
                (mkKeyInfo "sk-a" "GROQ_API_KEY") ({} : Stats)).stats.key_switches + 1 }⟩ 3 ∧
    (make_request_loop cfgR1 script429 0 0 0 ⟨keys2, {}⟩ 10).result = none :=
  ⟨c6_retry_loop_behaviour.1 cfgR1 script429 1 0 0 ⟨keys2, {}⟩ 2 (by decide),
   c6_retry_loop_behaviour.2.1 cfgR1 script429 0 0 0 ⟨keys2, {}⟩ 3 0
     (mkKeyInfo "sk-a" "GROQ_API_KEY") keys2 resp429 (by decide) (by decide) rfl rfl,
   c6_retry_loop_behaviour.2.2 cfgR1 script429 0 0 0 ⟨keys2, {}⟩ 10 (fun _ => rfl)⟩

/-- C7 counterexample: with a pool of two fresh (available) records and tag
2, the claim maps the tag to index `2 mod 2 = 0`, but the code returns the
record at index `(2 - 1) mod 2 = 1`. -/
theorem c7_counterexample :
    get_key_for_quest 0 2 keys2 = some (1, mkKeyInfo "sk-b" "GROQ_API_KEY2", keys2) ∧
    ((2 : Int).emod (keys2.length : Int)).toNat = 0 ∧
    (1 : Nat) ≠ 0 := by
  refine ⟨by decide, by decide, by decide⟩

/-- C7 (amended): the sticky assignment maps tag `t` to the record at index
`(t - 1) mod pool size` in registration order (one-based tags), falling back
to the three-tier selection when that record is unavailable; when quest-based
rotation is enabled and a non-zero tag is given, the assigned record is tried
once before the retry loop — on success `make_request` returns immediately
after that single call, and on failure the loop starts with attempt counter
0, so the sticky attempt is not counted against the retry ceiling. -/
theorem c7_sticky_assignment :
    (∀ now q (keys : List APIKeyInfo), keys ≠ [] →
      ∃ h : questIndex q keys.length < keys.length,
        get_key_for_quest now q keys =
          if availableCheck now (keys.get ⟨questIndex q keys.length, h⟩) then
            some (questIndex q keys.length, keys.get ⟨questIndex q keys.length, h⟩, keys)
          else get_next_available_key now keys) ∧
    (∀ cfg script (q : Int) clock s fuel i k keys',
      cfg.use_quest_based_rotation = true → q ≠ 0 →
      get_key_for_quest clock q s.api_keys = some (i, k, keys') →
      ((outcomeSucceeds (script 0) = true →
        make_request cfg script (some q) clock s fuel =
          ⟨(make_request_with_key cfg clock (script 0) k s.stats).payload,
            ⟨keys'.set i (make_request_with_key cfg clock (script 0) k s.stats).key,
              { (make_request_with_key cfg clock (script 0) k s.stats).stats with
                successful_requests :=
                  (make_request_with_key cfg clock (script 0) k s.stats).stats.successful_requests
                    + 1 }⟩,
            clock, 1, 0⟩) ∧
       (outcomeSucceeds (script 0) = false →
        make_request cfg script (some q) clock s fuel =
          make_request_loop cfg script 0 1 clock
            ⟨keys'.set i (make_request_with_key cfg clock (script 0) k s.stats).key,
              (make_request_with_key cfg clock (script 0) k s.stats).stats⟩ fuel))) := by
  constructor
  · intro now q keys hne
    have hlen : 0 < keys.length := List.length_pos.mpr hne
    have hq : questIndex q keys.length < keys.length := by
      unfold questIndex
      have hz : (keys.length : Int) ≠ 0 := by
        have hlen' := hlen
        omega
      have h1 : 0 ≤ (q - 1).emod (keys.length : Int) := Int.emod_nonneg _ hz
      have h2 : (q - 1).emod (keys.length : Int) < (keys.length : Int) :=
        Int.emod_lt_of_pos _ (by exact_mod_cast hlen)
      omega
    refine ⟨hq, ?_⟩
    unfold get_key_for_quest
    rw [if_neg (by simp [hne])]
    rw [List.getElem?_eq_getElem hq]
    rw [List.get_eq_getElem]
  · intro cfg script q clock s fuel i k keys' hrot hq0 hsel
    have hcond : (cfg.use_quest_based_rotation && (q != 0)) = true := by
      simp [hrot, hq0]
    constructor
    · intro hso
      have hs : (make_request_with_key cfg clock (script 0) k s.stats).success = true := by
        rw [exec_success_iff]
        exact hso
      simp only [make_request, hcond, if_true, hsel, hs]
    · intro hso
      have hs : (make_request_with_key cfg clock (script 0) k s.stats).success = false := by
        rw [exec_success_iff]
        exact hso
      simp only [make_request, hcond, if_true, hsel, hs, Bool.false_eq_true, if_false]

/-- C7 witness: the sticky index form applied at a concrete pool and tag, and
the immediate-return-on-success equation applied at a concrete run. -/
theorem c7_witness :
    (∃ h : questIndex 5 keys2.length < keys2.length,
      get_key_for_quest 0 5 keys2 =
        if availableCheck 0 (keys2.get ⟨questIndex 5 keys2.length, h⟩) then
          some (questIndex 5 keys2.length, keys2.get ⟨questIndex 5 keys2.length, h⟩, keys2)
        else get_next_available_key 0 keys2) ∧
    make_request cfgQuest scriptOK (some 1) 0 ⟨keys2, {}⟩ 5 =
      ⟨(make_request_with_key cfgQuest 0 (.http respOK)
          (mkKeyInfo "sk-a" "GROQ_API_KEY") ({} : Stats)).payload,
        ⟨keys2.set 0
            (make_request_with_key cfgQuest 0 (.http respOK)
              (mkKeyInfo "sk-a" "GROQ_API_KEY") ({} : Stats)).key,
          { (make_request_with_key cfgQuest 0 (.http respOK)
              (mkKeyInfo "sk-a" "GROQ_API_KEY") ({} : Stats)).stats with
            successful_requests :=
              (make_request_with_key cfgQuest 0 (.http respOK)
                (mkKeyInfo "sk-a" "GROQ_API_KEY") ({} : Stats)).stats.successful_requests
                + 1 }⟩,
        0, 1, 0⟩ :=
  ⟨c7_sticky_assignment.1 0 5 keys2 (by decide),
   (c7_sticky_assignment.2 cfgQuest scriptOK 1 0 ⟨keys2, {}⟩ 5 0
      (mkKeyInfo "sk-a" "GROQ_API_KEY") keys2 rfl (by decide) (by decide)).1 rfl⟩

end CosmoQuest
